import Mathlib

/-
Verification of the DGA-Detector DNS pipeline (C++ sources under src/src/Detector)
against its natural-language specification.

The development shallowly embeds the pipeline's pure logic:
machine integers become Nat/Int with explicit reductions modulo 2^w where
C++ wrap-around matters, std::unordered_map / std::map become association
lists with unique-key insertion, bounded MPMC queues become a capacity plus
a list of items (a blocking emplace that cannot complete while the queue
stays full is modelled as returning none), and IEEE-754 double arithmetic
in Arguments::CalculateSizes is modelled exactly by round-to-nearest-even
on 53-bit significands over scaled integers.
-/

namespace Detector

/-! ## Association maps (std::unordered_map / std::map on string keys) -/

/-- Overwriting insertion, the semantics of `m[key] = value` on a C++ map
with unique keys: update the existing entry in place, else append. -/
def assocSet {β : Type} : List (String × β) → String → β → List (String × β)
  | [], k, v => [(k, v)]
  | p :: ps, k, v => if p.1 = k then (k, v) :: ps else p :: assocSet ps k v

/-! ## Bounded MPMC queue (rigtorp::MPMCQueue via MPMCQueueWrapper)

`emplace` on the rigtorp queue blocks until a slot is free.  In this
one-shot embedding (no concurrent consumer runs during the call) a call on
a full queue never completes, which is modelled by `none`; on a non-full
queue it appends the moved value. -/

structure MPMCQueue (α : Type) where
  capacity : Nat
  items : List α

/-- MPMCQueueWrapper::emplace — forwards to rigtorp emplace (blocks when full). -/
def MPMCQueue.emplace {α : Type} (q : MPMCQueue α) (v : α) : Option (MPMCQueue α) :=
  if q.items.length < q.capacity then some { q with items := q.items ++ [v] } else none

/-! ## DetectorPacket (include/Structures/DetectorPacket.hpp) -/

/-- The fields of struct pcap_pkthdr used by the code: `caplen` is the
captured length, `len` the off-wire length. -/
structure pcap_pkthdr where
  ts_sec : Int
  ts_usec : Int
  caplen : Nat
  len : Nat

/-- Which of the two storage members of DetectorPacket holds the payload:
the fixed 750-byte member static_data, or the heap member dynamic_data. -/
inductive PacketStorage where
  | staticData : List Nat → PacketStorage
  | dynamicData : List Nat → PacketStorage

structure DetectorPacket where
  header : pcap_pkthdr
  data_size : Nat
  storage : PacketStorage

def DetectorPacket.MAX_STATIC_SIZE : Nat := 750

/-- The converting constructor DetectorPacket(hdr, packet_data): data_size
is initialised from hdr.len and the memcpy copies data_size bytes of the
payload into static_data when data_size <= 750, else into a fresh heap
buffer. -/
def DetectorPacket.construct (hdr : pcap_pkthdr) (packet_data : List Nat) : DetectorPacket :=
  let ds := hdr.len
  if ds ≤ DetectorPacket.MAX_STATIC_SIZE then
    { header := hdr, data_size := ds, storage := PacketStorage.staticData (packet_data.take ds) }
  else
    { header := hdr, data_size := ds, storage := PacketStorage.dynamicData (packet_data.take ds) }

/-- DetectorPacket::getData — returns the bytes held by whichever member
stores the payload. -/
def DetectorPacket.getData (p : DetectorPacket) : List Nat :=
  match p.storage with
  | PacketStorage.staticData b => b
  | PacketStorage.dynamicData b => b

/-- True when the payload lives in the inline static_data member. -/
def DetectorPacket.isInlineStored (p : DetectorPacket) : Bool :=
  match p.storage with
  | PacketStorage.staticData _ => true
  | PacketStorage.dynamicData _ => false

/-! ## NetworkAnalyser::PacketHandler (src/NetworkAnalyser.cpp, lines 97-101) -/

/-- The pcap callback: constructs a DetectorPacket from header and payload
and calls queue->emplace on it (the wrapper's blocking emplace; the wrapper
exposes no try_push). -/
def NetworkAnalyser.PacketHandler (q : MPMCQueue DetectorPacket) (header : pcap_pkthdr)
    (packet : List Nat) : Option (MPMCQueue DetectorPacket) :=
  q.emplace (DetectorPacket.construct header packet)

/-- Modelled from the spec: the push the spec describes for the capture
callback — non-blocking, dropping the packet and leaving the queue
unchanged when it is full.  Used only to compare the spec's words with the
source's behaviour. -/
def specNonBlockingDropPush {α : Type} (q : MPMCQueue α) (v : α) : MPMCQueue α :=
  if q.items.length < q.capacity then { q with items := q.items ++ [v] } else q

/-! ## Filter::ProcessDnsPacket (src/Filter.cpp, lines 64-91) -/

/-- What the code reads off a successfully parsed pcpp::DnsLayer: the QR
bit (a one-bit field, true = response), the 4-bit response code, and the
names of the questions section in order.  A packet whose bytes do not
parse as DNS yields no DnsView (getLayerOfType returns null). -/
structure DnsView where
  queryOrResponse : Bool
  responseCode : Int
  queries : List String

structure DNSPacketInfo where
  domain_names : List String
  response_code : Int

/-- Filter::ProcessDnsPacket, as a function from the parse result to the
record pushed (none = early return, nothing enqueued).  The code returns
early when no DNS layer parses or when queryOrResponse == 0, and otherwise
always emplaces DNSPacketInfo(domain_names, responseCode) — also when the
collected name list is empty. -/
def Filter.ProcessDnsPacket (parsed : Option DnsView) : Option DNSPacketInfo :=
  match parsed with
  | none => none
  | some dns_layer =>
    if dns_layer.queryOrResponse = false then none
    else some { domain_names := dns_layer.queries, response_code := dns_layer.responseCode }

/-! ## DomainValidator (src/DomainValidator.cpp) -/

def DomainValidator.MAX_BATCH_SIZE : Nat := 100000

def DomainValidator.MAX_CYCLE_COUNT : Nat := 100000

/-- DomainValidator::ShouldProcessBatch:
current_batch_size >= max_batch_size || cycle_count > max_cycle_count. -/
def DomainValidator.ShouldProcessBatch (current_batch_size cycle_count max_batch_size
    max_cycle_count : Nat) : Bool :=
  decide (current_batch_size ≥ max_batch_size) || decide (cycle_count > max_cycle_count)

/-- DomainValidator::ProcessPacketInfo: for each name of the record, in
order, domain_return_code_pairs[name] = response_code and cycle_count++. -/
def DomainValidator.ProcessPacketInfo (packet_info : DNSPacketInfo)
    (domain_return_code_pairs : List (String × Int)) (cycle_count : Nat) :
    List (String × Int) × Nat :=
  packet_info.domain_names.foldl
    (fun acc name => (assocSet acc.1 name packet_info.response_code, acc.2 + 1))
    (domain_return_code_pairs, cycle_count)

/-- DomainValidator::RemoveListedDomains: for each entry of the check
result whose value is true, erase that key from the pending map. -/
def DomainValidator.RemoveListedDomains (domain_return_code_pairs : List (String × Int))
    (result_list : List (String × Bool)) : List (String × Int) :=
  result_list.foldl
    (fun acc kResult => if kResult.2 then acc.filter (fun p => p.1 != kResult.1) else acc)
    domain_return_code_pairs

/-- DomainValidator::ProcessBatch, as the batch it emplaces on the
publisher queue: the pending map after erasing every key the blacklist
check mapped to true and every key the whitelist check mapped to true.
The result maps are parameters (the database returns them). -/
def DomainValidator.ProcessBatch (domain_return_code_pairs : List (String × Int))
    (result_blacklist_check result_whitelist_check : List (String × Bool)) :
    List (String × Int) :=
  DomainValidator.RemoveListedDomains
    (DomainValidator.RemoveListedDomains domain_return_code_pairs result_blacklist_check)
    result_whitelist_check

/-- The classifier state threaded through ProcessDomains: the pending map,
the cycle counter, and what has been pushed onto the publisher queue. -/
structure ValidatorState where
  pending : List (String × Int)
  cycle_count : Nat
  publisher_queue : List (List (String × Int))

/-- One iteration of the try_pop branch of DomainValidator::ProcessDomains
on a popped record: accumulate via ProcessPacketInfo, then if
ShouldProcessBatch fires, run ProcessBatch (which clears the map) and
reset cycle_count to 0. -/
def DomainValidator.processOneRecord (result_blacklist_check result_whitelist_check :
    List (String × Bool)) (st : ValidatorState) (packet_info : DNSPacketInfo) :
    ValidatorState :=
  let acc := DomainValidator.ProcessPacketInfo packet_info st.pending st.cycle_count
  if DomainValidator.ShouldProcessBatch acc.1.length acc.2
      DomainValidator.MAX_BATCH_SIZE DomainValidator.MAX_CYCLE_COUNT then
    { pending := [], cycle_count := 0,
      publisher_queue := st.publisher_queue ++
        [DomainValidator.ProcessBatch acc.1 result_blacklist_check result_whitelist_check] }
  else
    { pending := acc.1, cycle_count := acc.2, publisher_queue := st.publisher_queue }

/-! ## Publisher (src/Publisher.cpp) -/

/-- The fragment of nlohmann::json the publisher constructs. -/
inductive Json where
  | null : Json
  | num : Int → Json
  | obj : List (String × Json) → Json

/-- Publisher::ToJson: starting from a default (null) json value, for each
pair run output_json["domains"][kPair.first] = kPair.second.  Indexing a
null json with a key turns it into an object on the way. -/
def Publisher.setDomainsEntry (j : Json) (k : String) (code : Int) : Json :=
  match j with
  | Json.null => Json.obj [("domains", Json.obj [(k, Json.num code)])]
  | Json.obj fs =>
    let inner :=
      match fs.lookup "domains" with
      | some (Json.obj ds) => Json.obj (assocSet ds k (Json.num code))
      | _ => Json.obj [(k, Json.num code)]
    Json.obj (assocSet fs "domains" inner)
  | other => other

def Publisher.ToJson (domain_return_code_pairs : List (String × Int)) : Json :=
  domain_return_code_pairs.foldl (fun j p => Publisher.setDomainsEntry j p.1 p.2) Json.null

/-- One popped batch inside Publisher::Process: the json is built, dumped
and published unconditionally — some message is always sent; there is no
emptiness check. -/
def Publisher.processBatch (batch : List (String × Int)) : Option Json :=
  some (Publisher.ToJson batch)

/-- Modelled from the spec: the publisher step the spec describes, which
checks batch.is_empty() and skips silently.  Used only to compare the
spec's words with the source's behaviour. -/
def specPublisherStep (batch : List (String × Int)) : Option Json :=
  if batch.isEmpty then none else some (Publisher.ToJson batch)

/-! ## MessagePublisher (include/RabbitMQ/MessagePublisher.hpp, lines 61-77) -/

structure AmqpBasicProps where
  content_type : String
  delivery_mode : Nat

structure PublishCall where
  queue_name : String
  message : String
  props : AmqpBasicProps

/-- What one call of MessagePublisher::PublishMessage does. -/
structure PublishEffect where
  calls : List PublishCall
  sets_cancellation : Bool

/-- MessagePublisher::PublishMessage: builds persistent-delivery
properties (delivery_mode = 2, content type text/plain) and performs a
single amqp_basic_publish whose return value is not inspected; no loop, no
wait, and the cancellation flag is never touched. -/
def MessagePublisher.PublishMessage (queue_name message : String) : PublishEffect :=
  { calls := [{ queue_name := queue_name, message := message,
                props := { content_type := "text/plain", delivery_mode := 2 } }],
    sets_cancellation := false }

/-- Modelled from the spec: the number of publish attempts the spec's
retry policy performs given which attempts would succeed — retry up to 5
times, stopping at the first success.  Used only to compare the spec's
words with the source's behaviour. -/
def specRetryPublishAttempts (succeeds : Nat → Bool) : Nat :=
  if succeeds 0 then 1 else if succeeds 1 then 2 else if succeeds 2 then 3
  else if succeeds 3 then 4 else 5

/-! ## MongoDbDatabase::CheckInList (include/Database/MongoDbDatabase.hpp) -/

/-- A document the list-collection cursor yields: the value of its
"element" field (the listed domain) and the bsoncxx type-tag string that
bsoncxx::to_string(doc["element"].type()) produces for it (for a BSON utf8
string value that tag is "string"). -/
structure BsonDocument where
  element_value : String
  element_type_tag : String

structure CheckInListResult where
  results : List (String × Bool)
  recorded_hits : List (String × Int)

/-- MongoDbDatabase::HandleBlacklistHit: inserts {element, timestamp}
(seconds since the UNIX epoch) into the Results collection. -/
def MongoDbDatabase.HandleBlacklistHit (element : String) (unix_seconds : Int) :
    String × Int :=
  (element, unix_seconds)

/-- MongoDbDatabase::CheckInList: initialise results[e] = false for every
queried element, then for each cursor document compute
element = bsoncxx::to_string(doc["element"].type()) — the TYPE tag, not
the value — set results[element] = true, and for the blacklist record the
hit via HandleBlacklistHit. -/
def MongoDbDatabase.CheckInList (list_name : String) (elements : List String)
    (cursor : List BsonDocument) (unix_seconds : Int) : CheckInListResult :=
  let init := elements.foldl (fun r kElement => assocSet r kElement false) []
  cursor.foldl
    (fun acc doc =>
      let element := doc.element_type_tag
      { results := assocSet acc.results element true,
        recorded_hits :=
          if list_name = "Blacklist" then
            acc.recorded_hits ++ [MongoDbDatabase.HandleBlacklistHit element unix_seconds]
          else acc.recorded_hits })
    { results := init, recorded_hits := [] }

/-! ## Arguments::TrimQuotes (src/Arguments.cpp, lines 248-255)

Strings are byte lists (34 = double quote, 39 = single quote).  The C++
condition is, after operator precedence,
  (length >= 2 && front == DQUOTE && back == DQUOTE)
  || (front == SQUOTE && back == SQUOTE):
the second disjunct evaluates input.front()/input.back() with no length
guard, so on the empty string the function's behaviour is undefined —
modelled as none. -/

def DQUOTE : Nat := 34

def SQUOTE : Nat := 39

/-- std::string::substr(1, length() - 2): count is computed in size_t (so
for a one-byte string it wraps to 2^64 - 1) and is clamped to the bytes
available after position 1. -/
def cppSubstrOneLenSubTwo (input : List Nat) : List Nat :=
  (input.drop 1).take (min ((input.length + 2 ^ 64 - 2) % 2 ^ 64) (input.length - 1))

def Arguments.TrimQuotes (input : List Nat) : Option (List Nat) :=
  if 2 ≤ input.length ∧ input.headD 0 = DQUOTE ∧ input.getLastD 0 = DQUOTE then
    some (cppSubstrOneLenSubTwo input)
  else
    match input with
    | [] => none
    | _ :: _ =>
      if input.headD 0 = SQUOTE ∧ input.getLastD 0 = SQUOTE then
        some (cppSubstrOneLenSubTwo input)
      else some input

/-! ## IEEE-754 binary64 rounding, on the scaled integers CalculateSizes uses

Arguments::CalculateSizes computes
  (unsigned long long)(35.0 / 100.0 * (double)remaining_value).
35.0 / 100.0 is the double nearest 7/20, namely 3152519739159347 / 2^53;
the conversion of the u64 remaining_value to double and the product are
each rounded to nearest-even on a 53-bit significand.  Every value the
code meets here is a dyadic rational whose numerator (at denominator 2^53
for the product) is a Nat below 2^128, so rounding a value to binary64 is
exactly rounding its numerator to 53 significant bits. -/

/-- Fuel-bounded bit length: bitLenAux fuel n is the number of binary
digits of n (0 for n = 0), correct whenever n < 2 ^ fuel. -/
def bitLenAux : Nat → Nat → Nat
  | 0, _ => 0
  | fuel + 1, n => if n = 0 then 0 else bitLenAux fuel (n / 2) + 1

def bitLen (n : Nat) : Nat := bitLenAux 128 n

/-- Round N to the grid of multiples of 2 ^ k, nearest, ties to the even
multiple. -/
def rn53Round (N k : Nat) : Nat :=
  if 2 ^ (k - 1) < N % 2 ^ k ∨ (N % 2 ^ k = 2 ^ (k - 1) ∧ N / 2 ^ k % 2 = 1) then
    (N / 2 ^ k + 1) * 2 ^ k
  else N / 2 ^ k * 2 ^ k

/-- Round a Nat below 2^128 to 53 significant bits, ties to even — the
significand rounding of IEEE-754 binary64 (no overflow or subnormals occur
in the range CalculateSizes uses). -/
def rn53 (N : Nat) : Nat :=
  if N < 2 ^ 53 then N else rn53Round N (bitLen N - 53)

/-- The 2^53-scaled significand of the double 35.0 / 100.0. -/
def DOUBLE_35_OVER_100_NUM : Nat := 3152519739159347

/-- (double)r for a u64 value r: round to 53 significant bits. -/
def u64_to_double (r : Nat) : Nat := rn53 r

/-- The double product 35.0 / 100.0 * x for an integral double x, as a
2^53-scaled integer: the exact scaled product, rounded back to a 53-bit
significand. -/
def double_mul_35_over_100 (x : Nat) : Nat := rn53 (DOUBLE_35_OVER_100_NUM * x)

/-- (unsigned long long) of a non-negative double below 2^64: truncation
toward zero of the 2^53-scaled value. -/
def double_to_u64 (scaled : Nat) : Nat := scaled / 2 ^ 53

/-- packet_queue_size_alloc as a function of remaining_value:
static_cast of 35.0 / 100.0 * (double)remaining_value. -/
def packetQueueSizeAlloc (remaining_value : Nat) : Nat :=
  double_to_u64 (double_mul_35_over_100 (u64_to_double remaining_value))

/-! ## Arguments::CalculateSizes (src/Arguments.cpp, lines 204-222) -/

/-- The sizeof constants the computation divides by (sizeof(ValidatedDomains),
sizeof(DetectorPacket), sizeof(DNSPacketInfo)).  On x86-64 libstdc++ these
are 56, 792 and 32 bytes. -/
structure SlotSizes where
  sizeof_ValidatedDomains : Nat
  sizeof_DetectorPacket : Nat
  sizeof_DNSPacketInfo : Nat

def realSlotSizes : SlotSizes :=
  { sizeof_ValidatedDomains := 56, sizeof_DetectorPacket := 792, sizeof_DNSPacketInfo := 32 }

/-- The members CalculateSizes assigns: packet_buffer_size_ is int; the
three queue sizes are size_t members assigned through a static_cast<int>,
hence the value is the int-cast image converted back to size_t. -/
structure SizingPlan where
  packet_buffer_size : Int
  packet_queue_size : Nat
  dns_info_queue_size : Nat
  publisher_queue_size : Nat

/-- static_cast<int> of an unsigned 64-bit value: reduce modulo 2^32 and
reinterpret as a signed 32-bit value. -/
def toInt32 (n : Nat) : Int :=
  if n % 2 ^ 32 < 2 ^ 31 then ((n % 2 ^ 32 : Nat) : Int)
  else ((n % 2 ^ 32 : Nat) : Int) - 2 ^ 32

/-- Conversion of an int value to size_t: reduce modulo 2^64. -/
def intToSizeT (i : Int) : Nat := (i % 2 ^ 64).toNat

/-- Arguments::CalculateSizes.  All intermediate arithmetic is u64
(modelled with explicit reductions modulo 2^64, in particular the
subtraction computing remaining_value, which wraps when the budget is
smaller than the packet buffer plus the publisher slab); the 35-percent
split goes through double arithmetic as modelled above. -/
def Arguments.CalculateSizes (s : SlotSizes) (value : Nat) : SizingPlan :=
  let packet_buffer_size_alloc := min (value * 65 % 2 ^ 64 / 100) 2147483647
  let publisher_queue_memory := 1000 * s.sizeof_ValidatedDomains % 2 ^ 64
  let remaining_value :=
    (value + 2 ^ 64 + 2 ^ 64 - packet_buffer_size_alloc - publisher_queue_memory) % 2 ^ 64
  let packet_queue_size_alloc := packetQueueSizeAlloc remaining_value
  let dns_info_queue_size_alloc := (remaining_value + 2 ^ 64 - packet_queue_size_alloc) % 2 ^ 64
  { packet_buffer_size := toInt32 packet_buffer_size_alloc
    packet_queue_size := intToSizeT (toInt32 (packet_queue_size_alloc / s.sizeof_DetectorPacket))
    dns_info_queue_size :=
      intToSizeT (toInt32 (dns_info_queue_size_alloc / s.sizeof_DNSPacketInfo))
    publisher_queue_size := 1000 }

/-! ## Helper lemmas -/

/-- Overwriting insertion never produces the empty map. -/
theorem assocSet_ne_nil {β : Type} (m : List (String × β)) (k : String) (v : β) :
    assocSet m k v ≠ [] := by
  cases m with
  | nil => simp [assocSet]
  | cons p ps =>
    simp only [assocSet]
    split <;> simp

/-- Whatever RemoveListedDomains returns was already in the pending map. -/
theorem mem_RemoveListedDomains_subset (result_list : List (String × Bool)) :
    ∀ (m : List (String × Int)) (p : String × Int),
      p ∈ DomainValidator.RemoveListedDomains m result_list → p ∈ m := by
  induction result_list with
  | nil => intro m p hp; simpa [DomainValidator.RemoveListedDomains] using hp
  | cons kv rest ih =>
    intro m p hp
    simp only [DomainValidator.RemoveListedDomains, List.foldl_cons] at hp
    have hp2 := ih _ p hp
    by_cases hkv : kv.2 = true
    · rw [if_pos hkv] at hp2
      exact (List.mem_filter.mp hp2).1
    · rwa [if_neg hkv] at hp2

/-- A key that some entry of the check result maps to true does not
survive RemoveListedDomains. -/
theorem mem_RemoveListedDomains_not_listed (result_list : List (String × Bool)) :
    ∀ (m : List (String × Int)) (p : String × Int),
      p ∈ DomainValidator.RemoveListedDomains m result_list → (p.1, true) ∉ result_list := by
  induction result_list with
  | nil => intro m p _ h; simp at h
  | cons kv rest ih =>
    intro m p hp hmem
    simp only [DomainValidator.RemoveListedDomains, List.foldl_cons] at hp
    rcases List.mem_cons.mp hmem with heq | hrest
    · have hp2 := mem_RemoveListedDomains_subset rest _ p hp
      rw [← heq] at hp2
      simp only [if_pos] at hp2
      have := (List.mem_filter.mp hp2).2
      simp at this
    · exact ih _ p hp hrest

/-- Folding the per-name accumulation of ProcessPacketInfo: the map
component folds the insertions and the counter grows by one per name. -/
theorem processPacketInfo_foldl (names : List String) (rc : Int) :
    ∀ (m : List (String × Int)) (cyc : Nat),
      names.foldl (fun acc name => (assocSet acc.1 name rc, acc.2 + 1)) (m, cyc)
        = (names.foldl (fun mm name => assocSet mm name rc) m, cyc + names.length) := by
  induction names with
  | nil => intro m cyc; simp
  | cons n rest ih =>
    intro m cyc
    simp only [List.foldl_cons, List.length_cons, ih, Prod.mk.injEq, true_and]
    omega

/-- The fold building the publisher's json keeps the shape
obj [("domains", obj ds)] with ds nonempty. -/
theorem toJson_foldl_shape (pairs : List (String × Int)) :
    ∀ (ds : List (String × Json)), ds ≠ [] →
      ∃ ds2, ds2 ≠ [] ∧
        pairs.foldl (fun j p => Publisher.setDomainsEntry j p.1 p.2)
          (Json.obj [("domains", Json.obj ds)]) = Json.obj [("domains", Json.obj ds2)] := by
  induction pairs with
  | nil => intro ds hds; exact ⟨ds, hds, rfl⟩
  | cons p ps ih =>
    intro ds hds
    have hstep : Publisher.setDomainsEntry (Json.obj [("domains", Json.obj ds)]) p.1 p.2
        = Json.obj [("domains", Json.obj (assocSet ds p.1 (Json.num p.2)))] := by
      simp [Publisher.setDomainsEntry, List.lookup, assocSet]
    simp only [List.foldl_cons, hstep]
    exact ih (assocSet ds p.1 (Json.num p.2)) (assocSet_ne_nil ds p.1 (Json.num p.2))

/-- Publisher::ToJson is null exactly on the empty map, and otherwise an
object whose "domains" object is nonempty. -/
theorem toJson_shape (pairs : List (String × Int)) :
    pairs = [] ∧ Publisher.ToJson pairs = Json.null
    ∨ ∃ ds, ds ≠ [] ∧ Publisher.ToJson pairs = Json.obj [("domains", Json.obj ds)] := by
  cases pairs with
  | nil => exact Or.inl ⟨rfl, rfl⟩
  | cons p ps =>
    refine Or.inr ?_
    have hstep : Publisher.setDomainsEntry Json.null p.1 p.2
        = Json.obj [("domains", Json.obj [(p.1, Json.num p.2)])] := rfl
    have := toJson_foldl_shape ps [(p.1, Json.num p.2)] (by simp)
    rcases this with ⟨ds2, hds2, heq⟩
    exact ⟨ds2, hds2, by simpa [Publisher.ToJson, hstep] using heq⟩

/-! ## Claim C1 — no-classified-leak at the flush -/

/-- Claim C1: every domain in the batch ProcessBatch pushes survived both
removal passes, so neither the blacklist-check result nor the
whitelist-check result of that flush reported it listed (mapped it to
true); equivalently, every domain either lookup returned true for was
removed from pending before the push. -/
theorem claim_C1_no_classified_leak (pending : List (String × Int))
    (result_blacklist_check result_whitelist_check : List (String × Bool)) (d : String)
    (hd : d ∈ (DomainValidator.ProcessBatch pending result_blacklist_check
        result_whitelist_check).map Prod.fst) :
    (d, true) ∉ result_blacklist_check ∧ (d, true) ∉ result_whitelist_check := by
  rcases List.mem_map.mp hd with ⟨p, hp, rfl⟩
  unfold DomainValidator.ProcessBatch at hp
  constructor
  · exact mem_RemoveListedDomains_not_listed result_blacklist_check pending p
      (mem_RemoveListedDomains_subset result_whitelist_check _ p hp)
  · exact mem_RemoveListedDomains_not_listed result_whitelist_check _ p hp

/-- Witness for C1 at a concrete flush: pending {a.com, b.com}, a.com
blacklisted; b.com is in the pushed batch and is reported by neither
lookup. -/
theorem claim_C1_no_classified_leak_witness :
    ("b.com", true) ∉ [("a.com", true)] ∧ ("b.com", true) ∉ ([] : List (String × Bool)) :=
  claim_C1_no_classified_leak [("a.com", 0), ("b.com", 3)] [("a.com", true)] [] "b.com"
    (by decide)

/-! ## Claim C2 — the capture callback's push is blocking, not dropping -/

/-- Counterexample to C2: on a full packet queue the callback's
queue->emplace does not complete (the rigtorp emplace blocks), whereas the
claimed non-blocking push would return with the queue unchanged and the
packet dropped. -/
theorem claim_C2_nonblocking_counterexample :
    NetworkAnalyser.PacketHandler
        { capacity := 1, items := [DetectorPacket.construct ⟨0, 0, 0, 0⟩ []] } ⟨0, 0, 0, 0⟩ []
      = none
    ∧ specNonBlockingDropPush
        { capacity := 1, items := [DetectorPacket.construct ⟨0, 0, 0, 0⟩ []] }
        (DetectorPacket.construct ⟨0, 0, 0, 0⟩ [])
      = { capacity := 1, items := [DetectorPacket.construct ⟨0, 0, 0, 0⟩ []] } := by
  exact ⟨rfl, rfl⟩

/-- Amended C2: the capture callback enqueues the freshly constructed
packet with the wrapper's blocking emplace — when the queue has space the
packet is appended, and when the queue is full the call does not complete
(nothing is dropped and no non-blocking return happens). -/
theorem claim_C2_blocking_push (q : MPMCQueue DetectorPacket) (header : pcap_pkthdr)
    (packet : List Nat) :
    (q.items.length < q.capacity →
        NetworkAnalyser.PacketHandler q header packet
          = some { capacity := q.capacity,
                   items := q.items ++ [DetectorPacket.construct header packet] })
    ∧ (q.capacity ≤ q.items.length →
        NetworkAnalyser.PacketHandler q header packet = none) := by
  constructor
  · intro h
    simp [NetworkAnalyser.PacketHandler, MPMCQueue.emplace, h]
  · intro h
    simp [NetworkAnalyser.PacketHandler, MPMCQueue.emplace, Nat.not_lt.mpr h]

/-! ## Claim C3 — accumulation, cycle counting and the flush trigger -/

/-- Claim C3: for a popped record, each name is assigned in order with
overwrite, cycle_count grows by one per assignment (overwrites included),
the flush happens exactly when the accumulated map reaches MAX_BATCH_SIZE
or the counter exceeds MAX_CYCLE_COUNT, and a flush leaves pending empty
and cycle_count zero. -/
theorem claim_C3_accumulate_flush (result_blacklist_check result_whitelist_check :
    List (String × Bool)) (st : ValidatorState) (packet_info : DNSPacketInfo) :
    (DomainValidator.ProcessPacketInfo packet_info st.pending st.cycle_count).1
        = packet_info.domain_names.foldl
            (fun m name => assocSet m name packet_info.response_code) st.pending
    ∧ (DomainValidator.ProcessPacketInfo packet_info st.pending st.cycle_count).2
        = st.cycle_count + packet_info.domain_names.length
    ∧ ((DomainValidator.processOneRecord result_blacklist_check result_whitelist_check
          st packet_info).publisher_queue.length = st.publisher_queue.length + 1
        ↔ DomainValidator.MAX_BATCH_SIZE
              ≤ (DomainValidator.ProcessPacketInfo packet_info st.pending st.cycle_count).1.length
            ∨ DomainValidator.MAX_CYCLE_COUNT
              < (DomainValidator.ProcessPacketInfo packet_info st.pending st.cycle_count).2)
    ∧ (DomainValidator.processOneRecord result_blacklist_check result_whitelist_check
          st packet_info).pending
        = (if DomainValidator.ShouldProcessBatch
              (DomainValidator.ProcessPacketInfo packet_info st.pending st.cycle_count).1.length
              (DomainValidator.ProcessPacketInfo packet_info st.pending st.cycle_count).2
              DomainValidator.MAX_BATCH_SIZE DomainValidator.MAX_CYCLE_COUNT
           then []
           else (DomainValidator.ProcessPacketInfo packet_info st.pending st.cycle_count).1)
    ∧ (DomainValidator.processOneRecord result_blacklist_check result_whitelist_check
          st packet_info).cycle_count
        = (if DomainValidator.ShouldProcessBatch
              (DomainValidator.ProcessPacketInfo packet_info st.pending st.cycle_count).1.length
              (DomainValidator.ProcessPacketInfo packet_info st.pending st.cycle_count).2
              DomainValidator.MAX_BATCH_SIZE DomainValidator.MAX_CYCLE_COUNT
           then 0
           else (DomainValidator.ProcessPacketInfo packet_info st.pending st.cycle_count).2)
    ∧ (DomainValidator.processOneRecord result_blacklist_check result_whitelist_check
          st packet_info).publisher_queue
        = (if DomainValidator.ShouldProcessBatch
              (DomainValidator.ProcessPacketInfo packet_info st.pending st.cycle_count).1.length
              (DomainValidator.ProcessPacketInfo packet_info st.pending st.cycle_count).2
              DomainValidator.MAX_BATCH_SIZE DomainValidator.MAX_CYCLE_COUNT
           then st.publisher_queue ++
              [DomainValidator.ProcessBatch
                (DomainValidator.ProcessPacketInfo packet_info st.pending st.cycle_count).1
                result_blacklist_check result_whitelist_check]
           else st.publisher_queue) := by
  refine ⟨?_, ?_, ?_, ?_, ?_, ?_⟩
  · simp [DomainValidator.ProcessPacketInfo,
      processPacketInfo_foldl packet_info.domain_names packet_info.response_code]
  · simp [DomainValidator.ProcessPacketInfo,
      processPacketInfo_foldl packet_info.domain_names packet_info.response_code]
  · by_cases h : DomainValidator.ShouldProcessBatch
        (DomainValidator.ProcessPacketInfo packet_info st.pending st.cycle_count).1.length
        (DomainValidator.ProcessPacketInfo packet_info st.pending st.cycle_count).2
        DomainValidator.MAX_BATCH_SIZE DomainValidator.MAX_CYCLE_COUNT
    · have hiff := h
      simp only [DomainValidator.ShouldProcessBatch, Bool.or_eq_true, decide_eq_true_iff] at hiff
      simp [DomainValidator.processOneRecord, h, hiff]
    · have hiff := h
      simp only [DomainValidator.ShouldProcessBatch, Bool.or_eq_true, decide_eq_true_iff,
        not_or] at hiff
      simp only [DomainValidator.processOneRecord, h, if_false, Bool.false_eq_true]
      constructor
      · intro hlen; omega
      · intro hor; omega
  · by_cases h : DomainValidator.ShouldProcessBatch
        (DomainValidator.ProcessPacketInfo packet_info st.pending st.cycle_count).1.length
        (DomainValidator.ProcessPacketInfo packet_info st.pending st.cycle_count).2
        DomainValidator.MAX_BATCH_SIZE DomainValidator.MAX_CYCLE_COUNT
      <;> simp [DomainValidator.processOneRecord, h]
  · by_cases h : DomainValidator.ShouldProcessBatch
        (DomainValidator.ProcessPacketInfo packet_info st.pending st.cycle_count).1.length
        (DomainValidator.ProcessPacketInfo packet_info st.pending st.cycle_count).2
        DomainValidator.MAX_BATCH_SIZE DomainValidator.MAX_CYCLE_COUNT
      <;> simp [DomainValidator.processOneRecord, h]
  · by_cases h : DomainValidator.ShouldProcessBatch
        (DomainValidator.ProcessPacketInfo packet_info st.pending st.cycle_count).1.length
        (DomainValidator.ProcessPacketInfo packet_info st.pending st.cycle_count).2
        DomainValidator.MAX_BATCH_SIZE DomainValidator.MAX_CYCLE_COUNT
      <;> simp [DomainValidator.processOneRecord, h]

/-! ## Claim C4 — QR discipline and the empty-name-sequence records -/

/-- Counterexample to C4: a successfully parsed response (QR = 1) with an
empty questions section is still enqueued as a DNSPacketInfo with an empty
name list — the code has no emptiness check before the emplace. -/
theorem claim_C4_empty_record_counterexample :
    Filter.ProcessDnsPacket (some { queryOrResponse := true, responseCode := 0, queries := [] })
      = some { domain_names := [], response_code := 0 }
    ∧ (Filter.ProcessDnsPacket
        (some { queryOrResponse := true, responseCode := 0, queries := [] })).isSome = true := by
  exact ⟨rfl, rfl⟩

/-- Amended C4: a DNSPacketInfo is enqueued exactly when the bytes parse
as DNS and the header's QR bit is 1; a packet that fails to parse or has
QR = 0 produces nothing; the enqueued record carries the questions-section
names in order and the response code — also when that name list is empty. -/
theorem claim_C4_qr_discipline (parsed : Option DnsView) :
    Filter.ProcessDnsPacket none = none
    ∧ (Filter.ProcessDnsPacket parsed ≠ none →
        ∃ v, parsed = some v ∧ v.queryOrResponse = true
          ∧ Filter.ProcessDnsPacket parsed
              = some { domain_names := v.queries, response_code := v.responseCode })
    ∧ (∀ v : DnsView, parsed = some v → v.queryOrResponse = true →
        Filter.ProcessDnsPacket parsed
          = some { domain_names := v.queries, response_code := v.responseCode }) := by
  refine ⟨rfl, ?_, ?_⟩
  · intro hne
    cases parsed with
    | none => exact absurd rfl hne
    | some v =>
      by_cases hqr : v.queryOrResponse = false
      · exact absurd (by simp [Filter.ProcessDnsPacket, hqr]) hne
      · exact ⟨v, rfl, by simpa using hqr, by simp [Filter.ProcessDnsPacket, hqr]⟩
  · intro v hv hqr
    subst hv
    simp [Filter.ProcessDnsPacket, hqr]

/-! ## Claim C5 — what the publisher does with an empty batch -/

/-- Counterexample to C5: the publisher performs no emptiness check; an
empty popped batch is serialized (ToJson of an empty map is the json value
null, since the loop body never runs) and a message is published, whereas
the claim says none is. -/
theorem claim_C5_empty_batch_counterexample :
    Publisher.processBatch [] = some Json.null
    ∧ specPublisherStep [] = none := by
  exact ⟨rfl, rfl⟩

/-- Amended C5: the publisher publishes every popped batch without any
emptiness check — an empty batch goes out as the json null message — yet
the exact message with an empty "domains" object is indeed never
published, because the "domains" key is only created by inserting an
entry. -/
theorem claim_C5_always_publishes (batch : List (String × Int)) :
    Publisher.processBatch batch = some (Publisher.ToJson batch)
    ∧ Publisher.ToJson [] = Json.null
    ∧ Publisher.ToJson batch ≠ Json.obj [("domains", Json.obj [])] := by
  refine ⟨rfl, rfl, ?_⟩
  rcases toJson_shape batch with ⟨_, hnull⟩ | ⟨ds, hds, hobj⟩
  · rw [hnull]; intro h; cases h
  · rw [hobj]
    intro h
    rw [Json.obj.injEq] at h
    simp at h
    exact hds h

/-! ## Claim C6 — publish retry policy -/

/-- Counterexample to C6: PublishMessage performs exactly one
amqp_basic_publish and ignores its outcome, whereas the claimed retry
policy would attempt 5 times when every attempt fails. -/
theorem claim_C6_retry_counterexample :
    (MessagePublisher.PublishMessage "queue" "message").calls.length = 1
    ∧ specRetryPublishAttempts (fun _ => false) = 5
    ∧ (1 : Nat) ≠ 5 := by
  exact ⟨rfl, rfl, by decide⟩

/-- Amended C6: each message is published by a single unchecked
amqp_basic_publish call — no retries and no waits — marked persistent
(delivery_mode 2); a failure is silently ignored, so the batch is lost but
the pipeline continues and the cancellation flag is never set. -/
theorem claim_C6_single_attempt (queue_name message : String) :
    (MessagePublisher.PublishMessage queue_name message).calls
        = [{ queue_name := queue_name, message := message,
             props := { content_type := "text/plain", delivery_mode := 2 } }]
    ∧ (∀ c ∈ (MessagePublisher.PublishMessage queue_name message).calls,
        c.props.delivery_mode = 2)
    ∧ (MessagePublisher.PublishMessage queue_name message).sets_cancellation = false := by
  refine ⟨rfl, ?_, rfl⟩
  intro c hc
  simp [MessagePublisher.PublishMessage] at hc
  rw [hc]

/-! ## Claim C7 — CheckInList keys the result map by BSON type tags -/

/-- Claim C7's failing input, evaluated: querying the blacklist for
example.com with a cursor returning the matching document (whose "element"
value is the BSON utf8 string "example.com") produces a result map with
the spurious key "string" — the bsoncxx type tag — instead of marking the
queried domain, and records the blacklist hit under "string" as well
(though with the correct seconds-since-epoch timestamp). -/
theorem claim_C7_type_tag_bug :
    (MongoDbDatabase.CheckInList "Blacklist" ["example.com"]
        [{ element_value := "example.com", element_type_tag := "string" }] 1700000000).results
      = [("example.com", false), ("string", true)]
    ∧ (MongoDbDatabase.CheckInList "Blacklist" ["example.com"]
        [{ element_value := "example.com", element_type_tag := "string" }] 1700000000).recorded_hits
      = [("string", 1700000000)]
    ∧ "string" ∉ ["example.com"] := by
  exact ⟨rfl, rfl, by decide⟩

/-! ## Claim C9 — the hybrid storage variant is chosen from the wire length -/

/-- Counterexample to C9: a header with captured length 10 but wire length
800 yields a heap-stored packet although the captured length is at most
750 — the constructor reads hdr.len, not hdr.caplen. -/
theorem claim_C9_captured_length_counterexample :
    DetectorPacket.isInlineStored
        (DetectorPacket.construct { ts_sec := 0, ts_usec := 0, caplen := 10, len := 800 } [])
      = false
    ∧ ({ ts_sec := 0, ts_usec := 0, caplen := 10, len := 800 } : pcap_pkthdr).caplen ≤ 750 := by
  exact ⟨rfl, by decide⟩

/-- Amended C9: the storage variant is chosen once at construction from
the header's wire length hdr.len — at most 750 means the inline buffer,
strictly larger means the heap buffer — data_size is hdr.len, and reading
the data back yields exactly the stored payload bytes (the data_size bytes
the memcpy copied). -/
theorem claim_C9_wire_length_hybrid (hdr : pcap_pkthdr) (payload : List Nat) :
    DetectorPacket.isInlineStored (DetectorPacket.construct hdr payload) = decide (hdr.len ≤ 750)
    ∧ (DetectorPacket.construct hdr payload).data_size = hdr.len
    ∧ DetectorPacket.getData (DetectorPacket.construct hdr payload) = payload.take hdr.len := by
  by_cases h : hdr.len ≤ 750 <;>
    simp [DetectorPacket.construct, DetectorPacket.getData, DetectorPacket.isInlineStored,
      DetectorPacket.MAX_STATIC_SIZE, h]

/-! ## Claim C10 — TrimQuotes reads characters of the empty string -/

/-- Claim C10's failing input, evaluated: on the empty string the
double-quote disjunct is guarded by length() >= 2 but the single-quote
disjunct is not (&& binds tighter than ||), so input.front() and
input.back() are evaluated on an empty std::string — undefined behaviour,
modelled as none.  On the one-byte string consisting of a single quote the
unguarded disjunct also fires and the function strips a non-existent quote
pair, returning the empty string. -/
theorem claim_C10_empty_string_access :
    Arguments.TrimQuotes [] = none
    ∧ Arguments.TrimQuotes [39] = some [] := by
  exact ⟨rfl, rfl⟩

/-! ## Claim C8 — lemmas on the bit-length and rounding model -/

theorem bitLenAux_zero (fuel : Nat) : bitLenAux fuel 0 = 0 := by
  cases fuel <;> simp [bitLenAux]

/-- Correctness of the fuel-bounded bit length: for 0 < n < 2 ^ fuel it
brackets n between consecutive powers of two. -/
theorem bitLenAux_bounds : ∀ (fuel n : Nat), 0 < n → n < 2 ^ fuel →
    2 ^ (bitLenAux fuel n - 1) ≤ n ∧ n < 2 ^ bitLenAux fuel n := by
  intro fuel
  induction fuel with
  | zero => intro n h0 h1; simp at h1; omega
  | succ f ih =>
    intro n h0 h1
    have hn : n ≠ 0 := Nat.pos_iff_ne_zero.mp h0
    rw [bitLenAux, if_neg hn]
    by_cases hm : n / 2 = 0
    · have hn1 : n = 1 := by omega
      subst hn1
      rw [show (1 : Nat) / 2 = 0 from rfl, bitLenAux_zero]
      norm_num
    · have hm0 : 0 < n / 2 := Nat.pos_of_ne_zero hm
      have hfl : n < 2 * 2 ^ f := by
        have := pow_succ 2 f
        omega
      have hml : n / 2 < 2 ^ f := by omega
      obtain ⟨ih1, ih2⟩ := ih (n / 2) hm0 hml
      have hL : 0 < bitLenAux f (n / 2) := by
        rcases Nat.eq_zero_or_pos (bitLenAux f (n / 2)) with h | h
        · rw [h] at ih2; simp at ih2; omega
        · exact h
      have e1 : 2 ^ bitLenAux f (n / 2) = 2 * 2 ^ (bitLenAux f (n / 2) - 1) := by
        conv_lhs => rw [show bitLenAux f (n / 2) = bitLenAux f (n / 2) - 1 + 1 by omega]
        rw [pow_succ]
        ring
      have e2 : 2 ^ (bitLenAux f (n / 2) + 1) = 2 * 2 ^ bitLenAux f (n / 2) := by
        rw [pow_succ]; ring
      constructor
      · simp only [Nat.add_sub_cancel]
        omega
      · omega

/-- rn53Round rounds up by at most half a grid step. -/
theorem rn53Round_le (N k : Nat) : rn53Round N k ≤ N + 2 ^ (k - 1) := by
  unfold rn53Round
  have hhalfpos : 0 < 2 ^ (k - 1) := by positivity
  have hd : N / 2 ^ k * 2 ^ k + N % 2 ^ k = N := Nat.div_add_mod' N (2 ^ k)
  have hstep : (N / 2 ^ k + 1) * 2 ^ k = N / 2 ^ k * 2 ^ k + 2 ^ k := by ring
  have hexp : 2 ^ k ≤ 2 ^ (k - 1) + 2 ^ (k - 1) := by
    cases k with
    | zero => norm_num
    | succ m =>
      simp only [Nat.add_sub_cancel]
      rw [pow_succ]
      omega
  split
  · rename_i h
    have hr_ge : 2 ^ (k - 1) ≤ N % 2 ^ k := by
      rcases h with h | ⟨h, _⟩ <;> omega
    omega
  · have : N / 2 ^ k * 2 ^ k ≤ N := Nat.div_mul_le_self N (2 ^ k)
    omega

/-- rn53Round rounds down by at most half a grid step. -/
theorem rn53Round_ge (N k : Nat) : N ≤ rn53Round N k + 2 ^ (k - 1) := by
  unfold rn53Round
  have hhalfpos : 0 < 2 ^ (k - 1) := by positivity
  have hd : N / 2 ^ k * 2 ^ k + N % 2 ^ k = N := Nat.div_add_mod' N (2 ^ k)
  have hstep : (N / 2 ^ k + 1) * 2 ^ k = N / 2 ^ k * 2 ^ k + 2 ^ k := by ring
  have hr_lt : N % 2 ^ k < 2 ^ k := Nat.mod_lt N (by positivity)
  split
  · omega
  · rename_i h
    push_neg at h
    have hr_le : N % 2 ^ k ≤ 2 ^ (k - 1) := h.1
    omega

/-- rn53Round never falls below the floor grid point. -/
theorem rn53Round_lower (N k : Nat) : N / 2 ^ k * 2 ^ k ≤ rn53Round N k := by
  unfold rn53Round
  have hhalfpos : 0 < 2 ^ (k - 1) := by positivity
  have hstep : (N / 2 ^ k + 1) * 2 ^ k = N / 2 ^ k * 2 ^ k + 2 ^ k := by ring
  split <;> omega

/-- rn53Round never exceeds the ceiling grid point. -/
theorem rn53Round_upper (N k : Nat) : rn53Round N k ≤ (N / 2 ^ k + 1) * 2 ^ k := by
  unfold rn53Round
  have hhalfpos : 0 < 2 ^ (k - 1) := by positivity
  have hstep : (N / 2 ^ k + 1) * 2 ^ k = N / 2 ^ k * 2 ^ k + 2 ^ k := by ring
  split <;> omega

/-- Round-to-nearest-even on a fixed grid is monotone. -/
theorem rn53Round_mono (k a b : Nat) (hab : a ≤ b) : rn53Round a k ≤ rn53Round b k := by
  have hqm : a / 2 ^ k ≤ b / 2 ^ k := Nat.div_le_div_right hab
  by_cases hq : a / 2 ^ k = b / 2 ^ k
  · have hda := Nat.div_add_mod' a (2 ^ k)
    have hdb := Nat.div_add_mod' b (2 ^ k)
    rw [hq] at hda
    have hrm : a % 2 ^ k ≤ b % 2 ^ k := by omega
    unfold rn53Round
    rw [hq]
    have himp : (2 ^ (k - 1) < a % 2 ^ k ∨ (a % 2 ^ k = 2 ^ (k - 1) ∧ b / 2 ^ k % 2 = 1)) →
        (2 ^ (k - 1) < b % 2 ^ k ∨ (b % 2 ^ k = 2 ^ (k - 1) ∧ b / 2 ^ k % 2 = 1)) := by
      intro h
      rcases h with h | ⟨h1, h2⟩
      · exact Or.inl (lt_of_lt_of_le h hrm)
      · rcases Nat.lt_or_ge (2 ^ (k - 1)) (b % 2 ^ k) with h3 | h3
        · exact Or.inl h3
        · exact Or.inr ⟨by omega, h2⟩
    have hhalfpos : 0 < 2 ^ (k - 1) := by positivity
    by_cases hca : 2 ^ (k - 1) < a % 2 ^ k ∨ (a % 2 ^ k = 2 ^ (k - 1) ∧ b / 2 ^ k % 2 = 1)
    · rw [if_pos hca, if_pos (himp hca)]
    · rw [if_neg hca]
      have hmul : b / 2 ^ k * 2 ^ k ≤ (b / 2 ^ k + 1) * 2 ^ k := by
        have : (b / 2 ^ k + 1) * 2 ^ k = b / 2 ^ k * 2 ^ k + 2 ^ k := by ring
        omega
      split <;> omega
  · have hqlt : a / 2 ^ k < b / 2 ^ k := lt_of_le_of_ne hqm hq
    calc rn53Round a k ≤ (a / 2 ^ k + 1) * 2 ^ k := rn53Round_upper a k
      _ ≤ b / 2 ^ k * 2 ^ k := Nat.mul_le_mul_right _ (by omega)
      _ ≤ rn53Round b k := rn53Round_lower b k

theorem rn53_small (N : Nat) (h : N < 2 ^ 53) : rn53 N = N := by
  rw [rn53, if_pos h]

theorem rn53_big (N : Nat) (h : ¬ N < 2 ^ 53) : rn53 N = rn53Round N (bitLen N - 53) := by
  rw [rn53, if_neg h]

/-- The bit length of a value in the binade range rn53 handles. -/
theorem bitLen_facts (N : Nat) (hlo : 2 ^ 53 ≤ N) (hhi : N < 2 ^ 128) :
    54 ≤ bitLen N ∧ 2 ^ (bitLen N - 1) ≤ N ∧ N < 2 ^ bitLen N := by
  have h0 : 0 < N := lt_of_lt_of_le (by norm_num) hlo
  obtain ⟨h1, h2⟩ := bitLenAux_bounds 128 N h0 hhi
  have h1' : 2 ^ (bitLen N - 1) ≤ N := h1
  have h2' : N < 2 ^ bitLen N := h2
  refine ⟨?_, h1', h2'⟩
  by_contra hcon
  push_neg at hcon
  have : (2 : Nat) ^ bitLen N ≤ 2 ^ 53 := Nat.pow_le_pow_right (by norm_num) (by omega)
  have h53 : (2 : Nat) ^ 53 = 9007199254740992 := by norm_num
  omega

/-- Rounding to 53 bits overshoots by at most one part in 2^53. -/
theorem rn53_le_add (N : Nat) (hN : N < 2 ^ 128) : rn53 N ≤ N + N / 2 ^ 53 := by
  by_cases h : N < 2 ^ 53
  · rw [rn53_small N h]; omega
  · rw [rn53_big N h]
    push_neg at h
    obtain ⟨h54, hL1, hL2⟩ := bitLen_facts N h hN
    have hkey : 2 ^ (bitLen N - 53 - 1) ≤ N / 2 ^ 53 := by
      rw [Nat.le_div_iff_mul_le (by positivity)]
      calc 2 ^ (bitLen N - 53 - 1) * 2 ^ 53 = 2 ^ (bitLen N - 1) := by
            rw [← pow_add]; congr 1; omega
        _ ≤ N := hL1
    have := rn53Round_le N (bitLen N - 53)
    omega

/-- Rounding to 53 bits undershoots by at most one part in 2^53. -/
theorem rn53_add_ge (N : Nat) (hN : N < 2 ^ 128) : N ≤ rn53 N + N / 2 ^ 53 := by
  by_cases h : N < 2 ^ 53
  · rw [rn53_small N h]; omega
  · rw [rn53_big N h]
    push_neg at h
    obtain ⟨h54, hL1, hL2⟩ := bitLen_facts N h hN
    have hkey : 2 ^ (bitLen N - 53 - 1) ≤ N / 2 ^ 53 := by
      rw [Nat.le_div_iff_mul_le (by positivity)]
      calc 2 ^ (bitLen N - 53 - 1) * 2 ^ 53 = 2 ^ (bitLen N - 1) := by
            rw [← pow_add]; congr 1; omega
        _ ≤ N := hL1
    have := rn53Round_ge N (bitLen N - 53)
    omega

/-- rn53 is monotone on the range it models. -/
theorem rn53_mono (a b : Nat) (hab : a ≤ b) (hb : b < 2 ^ 128) : rn53 a ≤ rn53 b := by
  by_cases hb53 : b < 2 ^ 53
  · rw [rn53_small a (lt_of_le_of_lt hab hb53), rn53_small b hb53]
    exact hab
  · push_neg at hb53
    obtain ⟨hb54, hbL1, hbL2⟩ := bitLen_facts b hb53 hb
    have hq_lo : 2 ^ 52 ≤ b / 2 ^ (bitLen b - 53) := by
      rw [Nat.le_div_iff_mul_le (by positivity)]
      calc (2 : Nat) ^ 52 * 2 ^ (bitLen b - 53) = 2 ^ (bitLen b - 1) := by
            rw [← pow_add]; congr 1; omega
        _ ≤ b := hbL1
    have hrnb_lo : 2 ^ (bitLen b - 1) ≤ rn53 b := by
      rw [rn53_big b (by omega)]
      calc (2 : Nat) ^ (bitLen b - 1) = 2 ^ 52 * 2 ^ (bitLen b - 53) := by
            rw [← pow_add]; congr 1; omega
        _ ≤ b / 2 ^ (bitLen b - 53) * 2 ^ (bitLen b - 53) :=
            Nat.mul_le_mul_right _ hq_lo
        _ ≤ rn53Round b (bitLen b - 53) := rn53Round_lower b _
    by_cases ha53 : a < 2 ^ 53
    · rw [rn53_small a ha53]
      have : (2 : Nat) ^ 53 ≤ 2 ^ (bitLen b - 1) := Nat.pow_le_pow_right (by norm_num) (by omega)
      omega
    · push_neg at ha53
      have ha128 : a < 2 ^ 128 := lt_of_le_of_lt hab hb
      obtain ⟨ha54, haL1, haL2⟩ := bitLen_facts a ha53 ha128
      have hLab : bitLen a ≤ bitLen b := by
        by_contra hcon
        push_neg at hcon
        have : (2 : Nat) ^ bitLen b ≤ 2 ^ (bitLen a - 1) :=
          Nat.pow_le_pow_right (by norm_num) (by omega)
        omega
      by_cases hLeq : bitLen a = bitLen b
      · rw [rn53_big a (by omega), rn53_big b (by omega), hLeq]
        exact rn53Round_mono _ a b hab
      · have hLlt : bitLen a < bitLen b := lt_of_le_of_ne hLab hLeq
        rw [rn53_big a (by omega)]
        have hq_hi : a / 2 ^ (bitLen a - 53) + 1 ≤ 2 ^ 53 := by
          have : a / 2 ^ (bitLen a - 53) < 2 ^ 53 := by
            rw [Nat.div_lt_iff_lt_mul (by positivity)]
            calc a < 2 ^ bitLen a := haL2
              _ = 2 ^ 53 * 2 ^ (bitLen a - 53) := by rw [← pow_add]; congr 1; omega
          omega
        have h_up : rn53Round a (bitLen a - 53) ≤ 2 ^ bitLen a := by
          calc rn53Round a (bitLen a - 53)
              ≤ (a / 2 ^ (bitLen a - 53) + 1) * 2 ^ (bitLen a - 53) := rn53Round_upper a _
            _ ≤ 2 ^ 53 * 2 ^ (bitLen a - 53) := Nat.mul_le_mul_right _ hq_hi
            _ = 2 ^ bitLen a := by rw [← pow_add]; congr 1; omega
        have h_trans : (2 : Nat) ^ bitLen a ≤ 2 ^ (bitLen b - 1) :=
          Nat.pow_le_pow_right (by norm_num) (by omega)
        omega

/-! ## Claim C8 — behaviour of the 35-percent split -/

theorem packetQueueSizeAlloc_eq (r : Nat) (h : r < 2 ^ 53) :
    packetQueueSizeAlloc r = rn53 (DOUBLE_35_OVER_100_NUM * r) / 2 ^ 53 := by
  unfold packetQueueSizeAlloc double_to_u64 double_mul_35_over_100 u64_to_double
  rw [rn53_small r h]

/-- The 35-percent allocation is at most the remaining budget. -/
theorem packetQueueSizeAlloc_le_self (r : Nat) (hr : r ≤ 2 ^ 52) :
    packetQueueSizeAlloc r ≤ r := by
  rw [packetQueueSizeAlloc_eq r (lt_of_le_of_lt hr (by norm_num))]
  have hc : DOUBLE_35_OVER_100_NUM = 3152519739159347 := rfl
  have hM128 : DOUBLE_35_OVER_100_NUM * r < 2 ^ 128 := by
    calc DOUBLE_35_OVER_100_NUM * r ≤ 3152519739159347 * 2 ^ 52 := by
          rw [hc]; exact Nat.mul_le_mul_left _ hr
      _ < 2 ^ 128 := by norm_num
  have h1 := rn53_le_add (DOUBLE_35_OVER_100_NUM * r) hM128
  have h2 : DOUBLE_35_OVER_100_NUM * r / 2 ^ 53 ≤ DOUBLE_35_OVER_100_NUM * r :=
    Nat.div_le_self _ _
  have hlt : rn53 (DOUBLE_35_OVER_100_NUM * r) < (r + 1) * 2 ^ 53 := by
    have hMr : DOUBLE_35_OVER_100_NUM * r = 3152519739159347 * r := by rw [hc]
    have hrhs : (r + 1) * 2 ^ 53 = 9007199254740992 * r + 9007199254740992 := by ring_nf
    omega
  have hfin := (Nat.div_lt_iff_lt_mul (by positivity : 0 < (2 : Nat) ^ 53)).mpr hlt
  omega

/-- Adding one unit to the remaining budget grows the 35-percent
allocation by at most one. -/
theorem packetQueueSizeAlloc_succ_le (r : Nat) (hr : r < 2 ^ 32) :
    packetQueueSizeAlloc (r + 1) ≤ packetQueueSizeAlloc r + 1 := by
  have h32lt53 : (2 : Nat) ^ 32 < 2 ^ 53 := by norm_num
  rw [packetQueueSizeAlloc_eq r (by omega), packetQueueSizeAlloc_eq (r + 1) (by omega)]
  have hc : DOUBLE_35_OVER_100_NUM = 3152519739159347 := rfl
  have hA128 : DOUBLE_35_OVER_100_NUM * r < 2 ^ 128 := by
    calc DOUBLE_35_OVER_100_NUM * r ≤ 3152519739159347 * 2 ^ 32 := by
          rw [hc]; exact Nat.mul_le_mul_left _ (by omega)
      _ < 2 ^ 128 := by norm_num
  have hA128' : DOUBLE_35_OVER_100_NUM * (r + 1) < 2 ^ 128 := by
    calc DOUBLE_35_OVER_100_NUM * (r + 1) ≤ 3152519739159347 * 2 ^ 32 := by
          rw [hc]; exact Nat.mul_le_mul_left _ (by omega)
      _ < 2 ^ 128 := by norm_num
  have e : DOUBLE_35_OVER_100_NUM * (r + 1) = DOUBLE_35_OVER_100_NUM * r
      + DOUBLE_35_OVER_100_NUM := by ring
  have h1 := rn53_le_add (DOUBLE_35_OVER_100_NUM * (r + 1)) hA128'
  have h2 := rn53_add_ge (DOUBLE_35_OVER_100_NUM * r) hA128
  have hb1 : DOUBLE_35_OVER_100_NUM * (r + 1) / 2 ^ 53 ≤ 2147483648 := by
    have hle : DOUBLE_35_OVER_100_NUM * (r + 1) ≤ 3152519739159347 * 2 ^ 32 := by
      rw [hc]; exact Nat.mul_le_mul_left _ (by omega)
    calc DOUBLE_35_OVER_100_NUM * (r + 1) / 2 ^ 53
        ≤ 3152519739159347 * 2 ^ 32 / 2 ^ 53 := Nat.div_le_div_right hle
      _ ≤ 2147483648 := by norm_num
  have hb2 : DOUBLE_35_OVER_100_NUM * r / 2 ^ 53 ≤ 2147483648 := by
    have hle : DOUBLE_35_OVER_100_NUM * r ≤ 3152519739159347 * 2 ^ 32 := by
      rw [hc]; exact Nat.mul_le_mul_left _ (by omega)
    calc DOUBLE_35_OVER_100_NUM * r / 2 ^ 53
        ≤ 3152519739159347 * 2 ^ 32 / 2 ^ 53 := Nat.div_le_div_right hle
      _ ≤ 2147483648 := by norm_num
  have hkey : rn53 (DOUBLE_35_OVER_100_NUM * (r + 1)) ≤ rn53 (DOUBLE_35_OVER_100_NUM * r)
      + 2 ^ 53 := by
    have h53v : (2 : Nat) ^ 53 = 9007199254740992 := by norm_num
    have hcv : DOUBLE_35_OVER_100_NUM = 3152519739159347 := rfl
    omega
  calc rn53 (DOUBLE_35_OVER_100_NUM * (r + 1)) / 2 ^ 53
      ≤ (rn53 (DOUBLE_35_OVER_100_NUM * r) + 2 ^ 53) / 2 ^ 53 := Nat.div_le_div_right hkey
    _ = rn53 (DOUBLE_35_OVER_100_NUM * r) / 2 ^ 53 + 1 :=
        Nat.add_div_right _ (by positivity)

/-- The 35-percent allocation grows by at most the growth of the
remaining budget. -/
theorem packetQueueSizeAlloc_add_le (r : Nat) :
    ∀ d : Nat, r + d < 2 ^ 32 →
      packetQueueSizeAlloc (r + d) ≤ packetQueueSizeAlloc r + d := by
  intro d
  induction d with
  | zero => intro _; simp
  | succ n ih =>
    intro h
    have h1 : r + n < 2 ^ 32 := by omega
    have hstep := packetQueueSizeAlloc_succ_le (r + n) h1
    have hih := ih (by omega)
    have e : r + (n + 1) = r + n + 1 := by omega
    rw [e]
    omega

/-- The 35-percent allocation is monotone in the remaining budget. -/
theorem packetQueueSizeAlloc_mono (r1 r2 : Nat) (h : r1 ≤ r2) (h2 : r2 < 2 ^ 53) :
    packetQueueSizeAlloc r1 ≤ packetQueueSizeAlloc r2 := by
  rw [packetQueueSizeAlloc_eq r1 (lt_of_le_of_lt h h2), packetQueueSizeAlloc_eq r2 h2]
  have hc : DOUBLE_35_OVER_100_NUM = 3152519739159347 := rfl
  have hb : DOUBLE_35_OVER_100_NUM * r2 < 2 ^ 128 := by
    calc DOUBLE_35_OVER_100_NUM * r2 ≤ 3152519739159347 * 2 ^ 53 := by
          rw [hc]; exact Nat.mul_le_mul_left _ (le_of_lt h2)
      _ < 2 ^ 128 := by norm_num
  exact Nat.div_le_div_right (rn53_mono _ _ (Nat.mul_le_mul_left _ h) hb)

/-- The two int casts are the identity on small values. -/
theorem intToSizeT_toInt32_small (n : Nat) (h : n < 2 ^ 31) :
    intToSizeT (toInt32 n) = n := by
  have h32 : n % 2 ^ 32 = n := Nat.mod_eq_of_lt (by omega)
  rw [toInt32, h32, if_pos h, intToSizeT]
  have hlt : (n : Int) < 2 ^ 64 := by
    have : n < 2 ^ 64 := by omega
    exact_mod_cast this
  rw [Int.emod_eq_of_lt (by positivity) hlt]
  exact Int.toNat_natCast n

/-- In the well-behaved budget range the three queue capacities of
CalculateSizes are exactly the uncast values: no u64 wrap occurs in
remaining_value, and every allocation stays below 2^31 so the
static_cast<int> round trip is the identity. -/
theorem calculateSizes_fields (s : SlotSizes) (B : Nat)
    (hvd : s.sizeof_ValidatedDomains = 56) (h1 : 160000 ≤ B) (h2 : B ≤ 3000000000) :
    (Arguments.CalculateSizes s B).packet_queue_size
        = packetQueueSizeAlloc (B - B * 65 / 100 - 56000) / s.sizeof_DetectorPacket
    ∧ (Arguments.CalculateSizes s B).dns_info_queue_size
        = (B - B * 65 / 100 - 56000 - packetQueueSizeAlloc (B - B * 65 / 100 - 56000))
            / s.sizeof_DNSPacketInfo
    ∧ (Arguments.CalculateSizes s B).publisher_queue_size = 1000 := by
  have hp64 : (2 : Nat) ^ 64 = 18446744073709551616 := by norm_num
  have hp31 : (2 : Nat) ^ 31 = 2147483648 := by norm_num
  have e_mod : B * 65 % 2 ^ 64 = B * 65 := by rw [hp64]; omega
  have e_min : min (B * 65 / 100) 2147483647 = B * 65 / 100 := by omega
  have e_pqm : 1000 * s.sizeof_ValidatedDomains % 2 ^ 64 = 56000 := by
    rw [hvd, hp64]
  have e_rem : (B + 2 ^ 64 + 2 ^ 64 - min (B * 65 % 2 ^ 64 / 100) 2147483647
      - 1000 * s.sizeof_ValidatedDomains % 2 ^ 64) % 2 ^ 64 = B - B * 65 / 100 - 56000 := by
    rw [e_mod, e_min, e_pqm, hp64]; omega
  have h_rem31 : B - B * 65 / 100 - 56000 < 2 ^ 31 := by rw [hp31]; omega
  have h_rem52 : B - B * 65 / 100 - 56000 ≤ 2 ^ 52 := by
    have : (2 : Nat) ^ 31 ≤ 2 ^ 52 := by norm_num
    omega
  have h_pq_le : packetQueueSizeAlloc (B - B * 65 / 100 - 56000) ≤ B - B * 65 / 100 - 56000 :=
    packetQueueSizeAlloc_le_self _ h_rem52
  have e_dns : (B - B * 65 / 100 - 56000 + 2 ^ 64
      - packetQueueSizeAlloc (B - B * 65 / 100 - 56000)) % 2 ^ 64
      = B - B * 65 / 100 - 56000 - packetQueueSizeAlloc (B - B * 65 / 100 - 56000) := by
    rw [hp64]; omega
  have hc1 : packetQueueSizeAlloc (B - B * 65 / 100 - 56000) / s.sizeof_DetectorPacket
      < 2 ^ 31 := lt_of_le_of_lt (le_trans (Nat.div_le_self _ _) h_pq_le) h_rem31
  have hc2 : (B - B * 65 / 100 - 56000 - packetQueueSizeAlloc (B - B * 65 / 100 - 56000))
      / s.sizeof_DNSPacketInfo < 2 ^ 31 :=
    lt_of_le_of_lt (le_trans (Nat.div_le_self _ _) (by omega)) h_rem31
  refine ⟨?_, ?_, ?_⟩
  · show intToSizeT (toInt32 (packetQueueSizeAlloc
        ((B + 2 ^ 64 + 2 ^ 64 - min (B * 65 % 2 ^ 64 / 100) 2147483647
          - 1000 * s.sizeof_ValidatedDomains % 2 ^ 64) % 2 ^ 64) / s.sizeof_DetectorPacket)) = _
    rw [e_rem]
    exact intToSizeT_toInt32_small _ hc1
  · show intToSizeT (toInt32 (((B + 2 ^ 64 + 2 ^ 64 - min (B * 65 % 2 ^ 64 / 100) 2147483647
        - 1000 * s.sizeof_ValidatedDomains % 2 ^ 64) % 2 ^ 64 + 2 ^ 64
        - packetQueueSizeAlloc ((B + 2 ^ 64 + 2 ^ 64 - min (B * 65 % 2 ^ 64 / 100) 2147483647
          - 1000 * s.sizeof_ValidatedDomains % 2 ^ 64) % 2 ^ 64)) % 2 ^ 64
        / s.sizeof_DNSPacketInfo)) = _
    rw [e_rem, e_dns]
    exact intToSizeT_toInt32_small _ hc2
  · rfl

set_option maxRecDepth 8000 in
/-- Counterexample to C8 as stated: the u64 subtraction computing
remaining_value wraps for budgets below the packet buffer plus the
publisher slab, so the budget 100 yields a far larger packet-queue
capacity than the budget 160000 (whose remaining_value is exactly 0). -/
theorem claim_C8_monotonicity_counterexample :
    (100 : Nat) < 160000
    ∧ (Arguments.CalculateSizes realSlotSizes 160000).packet_queue_size
        < (Arguments.CalculateSizes realSlotSizes 100).packet_queue_size := by
  constructor
  · decide
  · decide

/-- Amended C8: with the source's publisher-slab constant
(sizeof(ValidatedDomains) = 56) and any packet/record slot sizes, the
derived packet-queue, DNS-info-queue and publisher-queue capacities are
monotone in the budget for budgets between 160000 (below which the u64
computation of remaining_value underflows) and 3·10^9 (above which the
saturations and the narrowing int casts come into play). -/
theorem claim_C8_sizer_monotone_amended (s : SlotSizes) (B1 B2 : Nat)
    (hvd : s.sizeof_ValidatedDomains = 56) (hlo : 160000 ≤ B1) (hlt : B1 < B2)
    (hhi : B2 ≤ 3000000000) :
    (Arguments.CalculateSizes s B1).packet_queue_size
        ≤ (Arguments.CalculateSizes s B2).packet_queue_size
    ∧ (Arguments.CalculateSizes s B1).dns_info_queue_size
        ≤ (Arguments.CalculateSizes s B2).dns_info_queue_size
    ∧ (Arguments.CalculateSizes s B1).publisher_queue_size
        ≤ (Arguments.CalculateSizes s B2).publisher_queue_size := by
  obtain ⟨e1p, e1d, e1pub⟩ := calculateSizes_fields s B1 hvd hlo (by omega)
  obtain ⟨e2p, e2d, e2pub⟩ := calculateSizes_fields s B2 hvd (by omega) hhi
  have hp31 : (2 : Nat) ^ 31 = 2147483648 := by norm_num
  have hr12 : B1 - B1 * 65 / 100 - 56000 ≤ B2 - B2 * 65 / 100 - 56000 := by omega
  have hr2_31 : B2 - B2 * 65 / 100 - 56000 < 2 ^ 31 := by rw [hp31]; omega
  have hr2_52 : B2 - B2 * 65 / 100 - 56000 ≤ 2 ^ 52 := by
    have : (2 : Nat) ^ 31 ≤ 2 ^ 52 := by norm_num
    omega
  have hr2_53 : B2 - B2 * 65 / 100 - 56000 < 2 ^ 53 := by
    have : (2 : Nat) ^ 31 ≤ 2 ^ 53 := by norm_num
    omega
  have hr2_32 : B2 - B2 * 65 / 100 - 56000 < 2 ^ 32 := by
    have : (2 : Nat) ^ 31 ≤ 2 ^ 32 := by norm_num
    omega
  have hpq1le : packetQueueSizeAlloc (B1 - B1 * 65 / 100 - 56000)
      ≤ B1 - B1 * 65 / 100 - 56000 :=
    packetQueueSizeAlloc_le_self _ (by omega)
  have hpqmono : packetQueueSizeAlloc (B1 - B1 * 65 / 100 - 56000)
      ≤ packetQueueSizeAlloc (B2 - B2 * 65 / 100 - 56000) :=
    packetQueueSizeAlloc_mono _ _ hr12 hr2_53
  have hpqadd : packetQueueSizeAlloc (B2 - B2 * 65 / 100 - 56000)
      ≤ packetQueueSizeAlloc (B1 - B1 * 65 / 100 - 56000)
        + (B2 - B2 * 65 / 100 - 56000 - (B1 - B1 * 65 / 100 - 56000)) := by
    have h := packetQueueSizeAlloc_add_le (B1 - B1 * 65 / 100 - 56000)
      (B2 - B2 * 65 / 100 - 56000 - (B1 - B1 * 65 / 100 - 56000)) (by omega)
    rwa [show B1 - B1 * 65 / 100 - 56000
        + (B2 - B2 * 65 / 100 - 56000 - (B1 - B1 * 65 / 100 - 56000))
        = B2 - B2 * 65 / 100 - 56000 by omega] at h
  refine ⟨?_, ?_, ?_⟩
  · rw [e1p, e2p]
    exact Nat.div_le_div_right hpqmono
  · rw [e1d, e2d]
    exact Nat.div_le_div_right (by omega)
  · rw [e1pub, e2pub]

/-- Witness for the amended C8 at the budgets 200000 < 300000 with the
x86-64 slot sizes. -/
theorem claim_C8_sizer_monotone_witness :
    (Arguments.CalculateSizes realSlotSizes 200000).packet_queue_size
        ≤ (Arguments.CalculateSizes realSlotSizes 300000).packet_queue_size
    ∧ (Arguments.CalculateSizes realSlotSizes 200000).dns_info_queue_size
        ≤ (Arguments.CalculateSizes realSlotSizes 300000).dns_info_queue_size
    ∧ (Arguments.CalculateSizes realSlotSizes 200000).publisher_queue_size
        ≤ (Arguments.CalculateSizes realSlotSizes 300000).publisher_queue_size :=
  claim_C8_sizer_monotone_amended realSlotSizes 200000 300000 rfl (by norm_num)
    (by norm_num) (by norm_num)

end Detector
